import Mathlib

/-!
Verification of the staged pipeline engine of `manga_translator.py`
(`MangaTranslator.translate` / `MangaTranslator._translate` and the
transport adapters `MangaTranslatorWS` and `MangaTranslatorAPI`).

The Python code is shallowly embedded: the mutable `Context` state bag
becomes an explicit record threaded through a state-plus-exception monad
`PipeM`; exceptions become an `Exc` sum type; the external model services
(upscaler, detector, OCR, translator, inpainter, renderer) and the image
utilities (`load_image`, `dump_image`, resizing) are parameters gathered
in an `Env` record, since the engine only coordinates calls into them.
-/

namespace MT

/-- Python exceptions relevant to the engine.  `translationInterrupt`
mirrors class `TranslationInterrupt`, `languageUnsupported` mirrors
`LanguageUnsupportedException`, `validationError` mirrors marshmallow's
`ValidationError`, `attributeError` mirrors Python's `AttributeError`;
`error` stands for any other exception. -/
inductive Exc where
  | translationInterrupt
  | languageUnsupported
  | validationError (msg : String)
  | attributeError (msg : String)
  | error (msg : String)
deriving DecidableEq, Repr

/-- A PIL image, abstracted to its dimensions plus an opaque content tag
(the engine never inspects pixels itself). -/
structure Image where
  width : Nat
  height : Nat
  content : Nat
deriving DecidableEq, Repr

/-- An inpainting mask, opaque to the engine. -/
abbrev Mask := Nat

/-- One detected text block (utils.TextBlock), restricted to the fields the
engine reads or writes: recognized source text, and the four fields written
by `_run_text_translation` (`region.translation`, `region.target_lang`,
`region._alignment`, `region._direction`). -/
structure Region where
  text : String
  translation : Option String
  target_lang : Option String
  alignment : Option String
  direction : Option String
deriving DecidableEq, Repr

/-- The `Context` attribute bag (utils.Context), restricted to the
attributes `translate`/`_translate` read or write.  Missing attributes read
as `None` in Python, hence the `Option` fields; configuration scalars that
`_preprocess_params` always fills are plain fields.  `retries` is an `Int`
because `-1` is the unlimited-retries sentinel. -/
structure Context where
  -- configuration (filled by `_preprocess_params`, never written by stages)
  retries : Int := 0
  upscale_ratio : Option Nat := none
  revert_upscaling : Bool := false
  uppercase : Bool := false
  lowercase : Bool := false
  target_lang : String := "ENG"
  alignment : String := "auto"
  direction : String := "auto"
  -- mutable pipeline state
  input : Option Image := none
  result : Option Image := none
  upscaled : Option Image := none
  img_rgb : Option Image := none
  img_alpha : Option Nat := none
  text_regions : Option (List Region) := none
  mask_raw : Option Mask := none
  mask : Option Mask := none
  img_inpainted : Option Image := none
  img_rendered : Option Image := none
deriving DecidableEq, Repr

/-- A progress hook: receives `(state, finished)` and may raise (notably
`TranslationInterrupt`). -/
abbrev Hook := String → Bool → Except Exc Unit

/-- The sequence of `(state, finished)` progress events broadcast so far. -/
abbrev Trace := List (String × Bool)

/-- External collaborators of the engine: the model-service dispatch and
prepare calls and the image utilities, all out of scope of the engine
itself (spec section 6), plus the text heuristics `count_valuable_text` /
`is_url` and the compiled `filter_text` / `filter_trans` regexes (modelled
as predicates since a compiled regex is function-valued). -/
structure Env where
  upscale : Context → Except Exc Image
  detect : Context → Except Exc (List Region × Mask × Option Mask)
  ocrDispatch : Context → Except Exc (List Region)
  translateDispatch : List String → Except Exc (List String)
  maskRefine : Context → Except Exc Mask
  inpaint : Context → Except Exc Image
  render : Context → Except Exc Image
  prepUpscaling : Except Exc Unit
  prepDetection : Except Exc Unit
  prepOcr : Except Exc Unit
  prepInpainting : Except Exc Unit
  prepTranslation : Except Exc Unit
  loadImage : Image → Image × Option Nat
  dumpImage : Image → Option Nat → Image
  resizeTo : Image → Nat × Nat → Image
  countValuable : String → Nat
  isUrl : String → Bool
  filterText : Option (String → Bool)
  filterTrans : Option (String → Bool)

/-- Used only to totalize reads of attributes the source code has always
assigned before reading. -/
def dfltImage : Image := { width := 0, height := 0, content := 0 }

/-! ## The state-plus-exception monad threading `ctx` and the event trace -/

/-- Computation mutating the `Context` in place (as Python does), appending
progress events to a trace, and possibly raising. -/
def PipeM (α : Type) : Type := Context → Trace → Context × Trace × Except Exc α

def pureP {α : Type} (a : α) : PipeM α := fun c t => (c, t, Except.ok a)

def bindP {α β : Type} (m : PipeM α) (f : α → PipeM β) : PipeM β := fun c t =>
  match m c t with
  | (c', t', Except.ok a) => f a c' t'
  | (c', t', Except.error e) => (c', t', Except.error e)

instance : Monad PipeM where
  pure := pureP
  bind := bindP

/-- Read the current context (Python: the `ctx` variable itself). -/
def getC : PipeM Context := fun c t => (c, t, Except.ok c)

/-- Mutate the context (Python: `ctx.attr = ...`). -/
def modifyC (f : Context → Context) : PipeM Unit := fun c t => (f c, t, Except.ok ())

/-- Lift a fallible external call. -/
def liftE {α : Type} (x : Except Exc α) : PipeM α := fun c t => (c, t, x)

/-- Embeds `MangaTranslator._report_progress`: awaits every hook in registration
order; an exception from a hook propagates. -/
def runHooks : List Hook → String → Bool → Except Exc Unit
  | [], _, _ => Except.ok ()
  | h :: rest, s, b =>
    match h s b with
    | Except.ok _ => runHooks rest s b
    | Except.error e => Except.error e

/-- Progress reporting inside the pipeline: the event is recorded on the
trace and every hook is awaited; a hook's exception propagates. -/
def reportProgress (hooks : List Hook) (s : String) (b : Bool) : PipeM Unit :=
  fun c t => (c, t ++ [(s, b)], runHooks hooks s b)

/-! ## The stages (`MangaTranslator._run_ocr`, `_run_text_translation`, `_translate`) -/

/-- Python `str.upper`, written via the character list so that the kernel
can evaluate it (`String.toUpper` itself is defined through `String.mapAux`,
which does not reduce). -/
def pyUpper (s : String) : String := String.mk (s.data.map Char.toUpper)

/-- Python `str.lower`, written via the character list. -/
def pyLower (s : String) : String := String.mk (s.data.map Char.toLower)

/-- Python `str.isnumeric`, restricted to ASCII digits. -/
def pyIsNumeric (s : String) : Bool := !s.isEmpty && s.all Char.isDigit

/-- Python `re.search(pattern, s)` on an optional compiled pattern (`None` patterns
short-circuit to no match via `and`). -/
def matchesOpt (p : Option (String → Bool)) (s : String) : Bool :=
  match p with
  | some f => f s
  | none => false

/-- The post-OCR keep predicate of `_run_ocr` (the region survives unless
numeric, matching `filter_text`, low-value, or a URL). -/
def ocrKeep (env : Env) (text : String) : Bool :=
  !(pyIsNumeric text || matchesOpt env.filterText text
    || decide (env.countValuable text ≤ 1) || env.isUrl text)

/-- Embeds `MangaTranslator._run_ocr`: OCR dispatch followed by the post-OCR
region filter (dropped regions are only logged). -/
def runOcr (env : Env) (ctx : Context) : Except Exc (List Region) := do
  let regions ← env.ocrDispatch ctx
  pure (regions.filter fun r => ocrKeep env r.text)

/-- The case transformation applied to each dispatched translation
(lines 443-446): note the `lowercase` branch also calls `.upper()`. -/
def caseTransform (ctx : Context) (t : String) : String :=
  if ctx.uppercase then pyUpper t
  else if ctx.lowercase then pyUpper t
  else t

/-- The `zip` assignment loop of `_run_text_translation`: region `i`
receives translation `i` (case-transformed) plus target language,
alignment and direction; `zip` truncation leaves excess regions
unmodified and drops excess translations. -/
def assignTranslations (ctx : Context) : List Region → List String → List Region
  | rs, [] => rs
  | [], _ => []
  | r :: rs, t :: ts =>
      { r with translation := some (caseTransform ctx t),
               target_lang := some ctx.target_lang,
               alignment := some ctx.alignment,
               direction := some ctx.direction } :: assignTranslations ctx rs ts

/-- The post-translation keep predicate; reading `region.translation` when
it was never assigned (a `zip`-truncated region) is a Python
`AttributeError` on `None`. -/
def transKeep (env : Env) (r : Region) : Except Exc Bool :=
  match r.translation with
  | none => Except.error (Exc.attributeError "NoneType has no attribute isnumeric")
  | some t =>
      Except.ok (!(pyIsNumeric t || matchesOpt env.filterTrans t
        || decide (env.countValuable t ≤ 1)))

/-- The post-translation filter loop of `_run_text_translation`. -/
def filterByTranslation (env : Env) : List Region → Except Exc (List Region)
  | [] => Except.ok []
  | r :: rest => do
      let keep ← transKeep env r
      let rest' ← filterByTranslation env rest
      pure (if keep then r :: rest' else rest')

/-- Everything `_run_text_translation` produces: the query list handed to
the single `dispatch_translation` call, the regions after the assignment
loop mutated them, and the filtered list the method returns. -/
structure TranslationStageOut where
  queries : List String
  assigned : List Region
  surviving : List Region
deriving DecidableEq, Repr

/-- Embeds `MangaTranslator._run_text_translation` (lines 438-462): one batched
dispatch over all regions' texts in order, positional assignment, then the
post-translation filter. -/
def runTextTranslation (env : Env) (ctx : Context) : Except Exc TranslationStageOut := do
  let queries := (ctx.text_regions.getD []).map Region.text
  let translated ← env.translateDispatch queries
  let assigned := assignTranslations ctx (ctx.text_regions.getD []) translated
  let surviving ← filterByTranslation env assigned
  pure { queries := queries, assigned := assigned, surviving := surviving }

/-- Embeds `MangaTranslator._translate` (lines 277-339): the stage sequence run on
the mutable context.  The `verbose` debug-image writes are pure I/O and are
omitted. -/
def translateStages (env : Env) (hooks : List Hook) : PipeM Context := do
  if (← getC).upscale_ratio.isSome then
    reportProgress hooks "upscaling" false
    let c1 ← getC
    let u ← liftE (env.upscale c1)
    modifyC fun c => { c with upscaled := some u }
  else
    modifyC fun c => { c with upscaled := c.input }
  modifyC fun c =>
    let p := env.loadImage (c.upscaled.getD dfltImage)
    { c with img_rgb := some p.1, img_alpha := p.2 }
  reportProgress hooks "detection" false
  let c2 ← getC
  let det ← liftE (env.detect c2)
  modifyC fun c =>
    { c with text_regions := some det.1, mask_raw := some det.2.1, mask := det.2.2 }
  let c3 ← getC
  if (c3.text_regions.getD []).isEmpty then
    reportProgress hooks "skip-no-regions" true
    getC
  else
    reportProgress hooks "ocr" false
    let c4 ← getC
    let ocrRegions ← liftE (runOcr env c4)
    modifyC fun c => { c with text_regions := some ocrRegions }
    let c5 ← getC
    if (c5.text_regions.getD []).isEmpty then
      reportProgress hooks "skip-no-text" true
      getC
    else
      reportProgress hooks "translating" false
      let c6 ← getC
      let tOut ← liftE (runTextTranslation env c6)
      modifyC fun c => { c with text_regions := some tOut.surviving }
      let c7 ← getC
      if (c7.text_regions.getD []).isEmpty then
        reportProgress hooks "error-translating" true
        getC
      else
        if c7.mask.isNone then
          reportProgress hooks "mask-generation" false
          let c8 ← getC
          let m ← liftE (env.maskRefine c8)
          modifyC fun c => { c with mask := some m }
        reportProgress hooks "inpainting" false
        let c9 ← getC
        let inp ← liftE (env.inpaint c9)
        modifyC fun c => { c with img_inpainted := some inp }
        reportProgress hooks "rendering" false
        let c10 ← getC
        let rend ← liftE (env.render c10)
        modifyC fun c => { c with img_rendered := some rend }
        reportProgress hooks "finished" true
        modifyC fun c =>
          { c with result := some (env.dumpImage (c.img_rendered.getD dfltImage) c.img_alpha) }
        let c11 ← getC
        if c11.revert_upscaling then
          reportProgress hooks "downscaling" false
          modifyC fun c =>
            { c with result := c.result.map fun r =>
                env.resizeTo r ((c.input.getD dfltImage).width, (c.input.getD dfltImage).height) }
        getC

/-! ## The attempt loop (`MangaTranslator.translate`, lines 203-236) -/

/-- The body of one `try` block: the five idempotent `prepare` calls
(upscaling only when a ratio is configured) followed by `_translate`. -/
def attemptBody (env : Env) (hooks : List Hook) : PipeM Context := do
  let c ← getC
  if c.upscale_ratio.isSome then
    liftE env.prepUpscaling
  liftE env.prepDetection
  liftE env.prepOcr
  liftE env.prepInpainting
  liftE env.prepTranslation
  translateStages env hooks

/-- Run one attempt from a given context with an empty local trace,
yielding the (possibly partially mutated) context, the events broadcast,
and the attempt's outcome. -/
def attemptOnce (env : Env) (hooks : List Hook) (ctx : Context) :
    Context × Trace × Except Exc Context :=
  attemptBody env hooks ctx []

/-- The progress state broadcast when an attempt raises: a distinguished
state for `LanguageUnsupportedException` (lines 226-229). -/
def errEvent (e : Exc) : String :=
  if e = Exc.languageUnsupported then "error-lang" else "error"

/-- How a run of `translate` can end. -/
inductive Outcome where
  | ok (c : Context)
  | interrupted (c : Context)
  | raised (e : Exc) (c : Context)
  | exhausted (c : Context)
  | fuelOut (c : Context)
deriving DecidableEq, Repr

/-- The `while ctx.retries == -1 or attempts < ctx.retries + 1` loop of
`MangaTranslator.translate`, with explicit fuel (the Python loop is
unbounded when `retries == -1`); `fuelOut` marks exactly the runs where the
loop would have continued past the supplied fuel.  `retries` is passed
separately because no stage ever writes `ctx.retries`.  The middle result
component lists the context as it stood at the start of each executed
attempt.  On an ordinary exception the error event is broadcast first; the
exception is re-raised only when `ignore_errors` is unset and
`not (retries == -1 or attempts < retries)` (lines 225-235). -/
def translateGo (envAt : Nat → Env) (hooks : List Hook) (retries : Int)
    (ignoreErrors : Bool) : Context → Nat → Nat → Trace × List Context × Outcome
  | ctx, attempts, 0 =>
      if retries = -1 ∨ (attempts : Int) < retries + 1 then ([], [], Outcome.fuelOut ctx)
      else ([], [], Outcome.exhausted ctx)
  | ctx, attempts, fuel + 1 =>
      if retries = -1 ∨ (attempts : Int) < retries + 1 then
        match attemptOnce (envAt attempts) hooks ctx with
        | (_, tr, Except.ok c) => (tr, [ctx], Outcome.ok c)
        | (ctx', tr, Except.error e) =>
          if e = Exc.translationInterrupt then (tr, [ctx], Outcome.interrupted ctx')
          else
            match runHooks hooks (errEvent e) true with
            | Except.error e2 => (tr ++ [(errEvent e, true)], [ctx], Outcome.raised e2 ctx')
            | Except.ok _ =>
              if ¬ignoreErrors ∧ ¬(retries = -1 ∨ (attempts : Int) < retries) then
                (tr ++ [(errEvent e, true)], [ctx], Outcome.raised e ctx')
              else
                let r := translateGo envAt hooks retries ignoreErrors ctx' (attempts + 1) fuel
                (tr ++ [(errEvent e, true)] ++ r.1, ctx :: r.2.1, r.2.2)
      else ([], [], Outcome.exhausted ctx)

/-- Lines 203-204 of `translate`: the context entering the attempt loop is
the preprocessed params with `ctx.input = image` and `ctx.result = None`. -/
def translateInit (params : Context) (image : Image) : Context :=
  { params with input := some image, result := none }

/-- Embeds `MangaTranslator.translate`: build the initial context and run the
attempt loop.  `ignoreErrors` is `self.ignore_errors`. -/
def translate (envAt : Nat → Env) (hooks : List Hook) (ignoreErrors : Bool)
    (params : Context) (image : Image) (fuel : Nat) : Trace × List Context × Outcome :=
  translateGo envAt hooks params.retries ignoreErrors (translateInit params image) 0 fuel

/-- Embeds `MangaTranslator._translate_file` lines 155-163: the image actually
saved — the context's result if set, else the original image provided text
regions were at least computed, else nothing. -/
def fileEffectiveResult (img : Image) (ctx : Context) : Option Image :=
  match ctx.result with
  | some r => some r
  | none =>
    match ctx.text_regions with
    | some _ => some img
    | none => none

/-! ## The SyncServer REST facade (`MangaTranslatorAPI`) -/

/-- The request fields of `MangaTranslatorAPI.PostSchema` that carry
validators, plus the three input carriers.  An `Option Image` input field
stands for "field present, and its bytes decode to this image". -/
structure PostData where
  size : Option String := none
  translator : Option String := none
  target_language : Option String := none
  detector : Option String := none
  direction : Option String := none
  inpainter : Option String := none
  ocr : Option String := none
  image : Option Image := none
  base64Images : Option Image := none
  url : Option Image := none
deriving DecidableEq, Repr

/-- The enumerated option sets imported from the detection / translation /
inpainting / ocr modules (not part of the engine file); kept abstract. -/
structure OptionSets where
  translators : List String
  validLanguages : List String
  detectors : List String
  inpainters : List String
  ocrs : List String

/-- The `PostSchema.size` validator, verbatim from line 843:
`lambda a: a.upper() not in ['S', 'M', 'L', 'X']` (a marshmallow validator
returning `True` means the value is accepted). -/
def validateSize (a : String) : Bool := !(["S", "M", "L", "X"].contains (pyUpper a))

/-- The validator shape shared by the translator / detector / inpainter /
ocr selectors: `lambda a: a.lower() not in OPTIONS`. -/
def validateLowerNotIn (options : List String) (a : String) : Bool :=
  !(options.contains (pyLower a))

/-- The `PostSchema.target_language` validator:
`lambda a: a.upper() not in VALID_LANGUAGES`. -/
def validateUpperNotIn (options : List String) (a : String) : Bool :=
  !(options.contains (pyUpper a))

/-- The `PostSchema.direction` validator, verbatim from lines 849-850:
`lambda a: a.lower() not in set(['auto', 'h', 'v'])`. -/
def validateDirection (a : String) : Bool := !(["auto", "h", "v"].contains (pyLower a))

/-- A `required=False` field passes the schema when absent, and otherwise
exactly when its validator returns `True`. -/
def fieldOk (v : String → Bool) : Option String → Bool
  | none => true
  | some a => v a

/-- Marshmallow `schema.load(d)` succeeds iff every present validated field passes its
validator; a failing validator raises `ValidationError`. -/
def schemaLoadOk (sets : OptionSets) (d : PostData) : Bool :=
  fieldOk validateSize d.size &&
  fieldOk (validateLowerNotIn sets.translators) d.translator &&
  fieldOk (validateUpperNotIn sets.validLanguages) d.target_language &&
  fieldOk (validateLowerNotIn sets.detectors) d.detector &&
  fieldOk validateDirection d.direction &&
  fieldOk (validateLowerNotIn sets.inpainters) d.inpainter &&
  fieldOk (validateLowerNotIn sets.ocrs) d.ocr

/-- The input-selection cascade of `MangaTranslatorAPI.get_file`
(lines 712-728): `image` first, then `base64Images`, then `url`; the
`ValidationError("donest exist")` branch is unreachable from
`err_handling`, which checks for the all-absent case first. -/
def getFileContent (image b64 url : Option Image) : Except Exc Image :=
  match image with
  | some img => Except.ok img
  | none =>
    match b64 with
    | some img => Except.ok img
    | none =>
      match url with
      | some img => Except.ok img
      | none => Except.error (Exc.validationError "donest exist")

/-- Embeds `MangaTranslatorAPI.get_file`: select the content, then reject it above
the `8000**2` pixel-area ceiling (lines 733-734). -/
def getFile (image b64 url : Option Image) : Except Exc Image := do
  let img ← getFileContent image b64 url
  if img.width * img.height > 8000 ^ 2 then Except.error (Exc.validationError "to large")
  else pure img

/-- What a SyncServer endpoint replies: the HTTP status, the `status` field
of the JSON body when one is set, and the image the pipeline was invoked
with (if it was invoked at all). -/
structure ApiResponse where
  httpStatus : Nat
  bodyStatus : Option Nat
  pipelineImage : Option Image
deriving DecidableEq, Repr

/-- Embeds `MangaTranslatorAPI.err_handling` (lines 782-810).  An unsupported
content type yields 415; a `ValidationError` (from `schema.load` or
`get_file`) yields HTTP 422; the all-absent input case returns
`web.json_response(\x7b'error': "Missing input", 'status': 422\x7d)` -
whose HTTP status is the aiohttp default 200, only the body says 422;
otherwise the pipeline runs on the selected image. -/
def errHandling (sets : OptionSets) (contentTypeOk : Bool) (d : PostData) : ApiResponse :=
  if contentTypeOk then
    if schemaLoadOk sets d then
      if d.image = none ∧ d.base64Images = none ∧ d.url = none then
        { httpStatus := 200, bodyStatus := some 422, pipelineImage := none }
      else
        match getFile d.image d.base64Images d.url with
        | Except.error _ => { httpStatus := 422, bodyStatus := some 422, pipelineImage := none }
        | Except.ok img => { httpStatus := 200, bodyStatus := none, pipelineImage := some img }
    else { httpStatus := 422, bodyStatus := some 422, pipelineImage := none }
  else { httpStatus := 415, bodyStatus := some 415, pipelineImage := none }

/-! ## The SocketWorker reply (`MangaTranslatorWS.listen`, lines 651-667) -/

/-- Python attribute access `o.height` on an optional image: `None` has no
attributes. -/
def pyHeight : Option Image → Except Exc Nat
  | some i => Except.ok i.height
  | none => Except.error (Exc.attributeError "NoneType has no attribute height")

/-- Python attribute access `o.width` on an optional image. -/
def pyWidth : Option Image → Except Exc Nat
  | some i => Except.ok i.width
  | none => Except.error (Exc.attributeError "NoneType has no attribute width")

/-- Lines 653-655: `output = translation_dict.result; if output is None:
output = Image.fromarray(np.zeros((output.height, output.width, 4), ...))`.
In the `None` branch the dimensions are read off `output` itself, which is
still `None` at that point. -/
def wsBuildOutput (result : Option Image) : Except Exc Image :=
  match result with
  | some out => Except.ok out
  | none => do
    let h ← pyHeight none
    let w ← pyWidth none
    pure { width := w, height := h, content := 0 }

/-- The `finish_task` frame sent back over the websocket. -/
structure WsFrame where
  taskId : Nat
  imageBytes : Image
deriving DecidableEq, Repr

/-- One `new_task` handled by the `async for raw in websocket` loop: build
the output image and send the `finish_task` frame; any exception is caught
by the surrounding `except Exception` (line 672), logged, and no frame is
sent. -/
def wsHandleNewTask (taskId : Nat) (translateResult : Option Image) : Option WsFrame :=
  match wsBuildOutput translateResult with
  | Except.ok img => some { taskId := taskId, imageBytes := img }
  | Except.error _ => none

def noRegionsCtx (env : Env) (ctx : Context) (m : Mask) (mo : Option Mask) : Context :=
  { ctx with upscaled := ctx.input,
             img_rgb := some (env.loadImage (ctx.input.getD dfltImage)).1,
             img_alpha := (env.loadImage (ctx.input.getD dfltImage)).2,
             text_regions := some [], mask_raw := some m, mask := mo }

/-! ## Concrete instances used to exhibit runs of the engine -/

/-- A concrete 100x80 source image. -/
def cImg : Image := { width := 100, height := 80, content := 7 }

/-- A concrete upscaled image. -/
def cUp : Image := { width := 200, height := 160, content := 9 }

/-- A benign environment: every model call succeeds and detection finds no
regions. -/
def cEnvBase : Env := {
  upscale := fun _ => Except.ok cUp
  detect := fun _ => Except.ok ([], 0, none)
  ocrDispatch := fun _ => Except.ok []
  translateDispatch := fun qs => Except.ok qs
  maskRefine := fun _ => Except.ok 1
  inpaint := fun _ => Except.ok cImg
  render := fun _ => Except.ok cImg
  prepUpscaling := Except.ok ()
  prepDetection := Except.ok ()
  prepOcr := Except.ok ()
  prepInpainting := Except.ok ()
  prepTranslation := Except.ok ()
  loadImage := fun i => (i, none)
  dumpImage := fun i _ => i
  resizeTo := fun i p => { i with width := p.1, height := p.2 }
  countValuable := fun s => s.length
  isUrl := fun _ => false
  filterText := none
  filterTrans := none
}

/-- A region with some recognized text. -/
def cRegion : Region :=
  { text := "hello", translation := none, target_lang := none,
    alignment := none, direction := none }

/-- A hook that raises `TranslationInterrupt` when the `ocr` stage is about
to begin (the SyncServer partial-pipeline pattern of lines 743-745). -/
def cHookOcr : Hook := fun s b =>
  if s = "ocr" && !b then Except.error Exc.translationInterrupt else Except.ok ()

/-- Environment whose detection finds one region. -/
def cEnvC3 : Env := { cEnvBase with detect := fun _ => Except.ok ([cRegion], 0, none) }

/-- Environment whose upscaler succeeds but whose detector always raises. -/
def cEnvC1 : Env := { cEnvBase with detect := fun _ => Except.error (Exc.error "det") }

/-- Parameters with one retry and an upscale ratio configured. -/
def cParamsC1 : Context := { retries := 1, upscale_ratio := some 2 }

/-- The context as the failed first attempt of `cEnvC1` leaves it: the
upscaled image and its rgb load are already written. -/
def cCtxC1Mut : Context :=
  { retries := 1, upscale_ratio := some 2, input := some cImg,
    upscaled := some cUp, img_rgb := some cUp }

/-- Environment whose `prepare_detection` call always raises. -/
def cEnvC5 : Env := { cEnvBase with prepDetection := Except.error (Exc.error "prep") }

/-- Environment where both `prepare` calls that can run first always raise
(so every attempt fails regardless of the upscaling configuration). -/
def cEnvPrepFail : Env :=
  { cEnvBase with prepUpscaling := Except.error (Exc.error "prep"),
                  prepDetection := Except.error (Exc.error "prep") }

/-- The context the interrupted attempt of `cEnvC3` leaves behind: the
detected region is recorded, nothing past OCR ran. -/
def cCtxC3Mut : Context :=
  { input := some cImg, upscaled := some cImg, img_rgb := some cImg,
    text_regions := some [cRegion], mask_raw := some 0 }

/-- The final context of a `cEnvBase` run: detection found no regions, so
`result` is still `None`. -/
def cCtxNoRegions : Context :=
  { input := some cImg, upscaled := some cImg, img_rgb := some cImg,
    text_regions := some [], mask_raw := some 0 }

/-- Two regions entering the translation stage. -/
def cRegionA : Region :=
  { text := "abc", translation := none, target_lang := none,
    alignment := none, direction := none }

/-- Second region entering the translation stage. -/
def cRegionB : Region :=
  { text := "wxyz", translation := none, target_lang := none,
    alignment := none, direction := none }

/-- A translator environment appending a marker to every query. -/
def cEnv6 : Env :=
  { cEnvBase with translateDispatch := fun qs => Except.ok (qs.map fun q => q ++ "!!") }

/-- A context holding the two regions, with both case options unset. -/
def cCtx6 : Context := { text_regions := some [cRegionA, cRegionB] }

/-- A context holding the two regions with only `lowercase` set. -/
def cCtx10 : Context := { lowercase := true, text_regions := some [cRegionA, cRegionB] }

/-- Empty enumerated option sets (their real contents live outside the
engine file; the direction set is hard-coded in it). -/
def sets0 : OptionSets :=
  { translators := [], validLanguages := [], detectors := [], inpainters := [], ocrs := [] }

/-- A small decodable image attached to a request. -/
def smallImg : Image := { width := 10, height := 10, content := 1 }

/-- A second small image, distinguishable from the first. -/
def smallImg2 : Image := { width := 20, height := 20, content := 2 }

/-- An image above the 8000*8000 pixel-area ceiling. -/
def bigImg : Image := { width := 8001, height := 8001, content := 3 }

/-! ## Helper lemmas about the attempt loop -/

theorem bindP_def {α β : Type} (m : PipeM α) (f : α → PipeM β) :
    m >>= f = bindP m f := rfl

theorem pureP_def {α : Type} (a : α) : (pure a : PipeM α) = pureP a := rfl

/-- Reduction of the `Except` monad bind on a success. -/
theorem exceptBind_ok {ε α β : Type} (a : α) (f : α → Except ε β) :
    (Except.ok a : Except ε α) >>= f = f a := rfl

/-- Reduction of the `Except` monad bind on an error. -/
theorem exceptBind_error {ε α β : Type} (e : ε) (f : α → Except ε β) :
    (Except.error e : Except ε α) >>= f = Except.error e := rfl

/-- Reduction of `pure` in the `Except` monad. -/
theorem exceptPure {ε α : Type} (a : α) : (pure a : Except ε α) = Except.ok a := rfl

/-- One unfolding of the loop when the attempt succeeds: the loop returns
`_translate`'s value after a single attempt. -/
theorem tgoOkStep (envAt : Nat → Env) (hooks : List Hook) (retries : Int)
    (ign : Bool) (ctx ctx0 c : Context) (tr : Trace) (attempts fuel : Nat)
    (hcond : retries = -1 ∨ (attempts : Int) < retries + 1)
    (hA : attemptOnce (envAt attempts) hooks ctx = (ctx0, tr, Except.ok c)) :
    translateGo envAt hooks retries ign ctx attempts (fuel + 1) = (tr, [ctx], Outcome.ok c) := by
  rw [translateGo, if_pos hcond, hA]

/-- One unfolding of the loop when the attempt fails with an ordinary
exception and the run continues to the next attempt. -/
theorem tgoErrorCont (envAt : Nat → Env) (hooks : List Hook) (retries : Int)
    (ign : Bool) (ctx ctx' : Context) (tr : Trace) (e : Exc) (attempts fuel : Nat)
    (hcond : retries = -1 ∨ (attempts : Int) < retries + 1)
    (hA : attemptOnce (envAt attempts) hooks ctx = (ctx', tr, Except.error e))
    (hE : e ≠ Exc.translationInterrupt)
    (hH : runHooks hooks (errEvent e) true = Except.ok ())
    (hC : ign = true ∨ retries = -1 ∨ (attempts : Int) < retries) :
    translateGo envAt hooks retries ign ctx attempts (fuel + 1) =
      (tr ++ [(errEvent e, true)] ++
        (translateGo envAt hooks retries ign ctx' (attempts + 1) fuel).1,
       ctx :: (translateGo envAt hooks retries ign ctx' (attempts + 1) fuel).2.1,
       (translateGo envAt hooks retries ign ctx' (attempts + 1) fuel).2.2) := by
  rw [translateGo]
  rw [if_pos hcond, hA]
  simp only [if_neg hE, hH]
  have hC' : ¬(¬ign ∧ ¬(retries = -1 ∨ (attempts : Int) < retries)) := by
    rcases hC with h | h
    · simp [h]
    · intro hx
      exact hx.2 h
  rw [if_neg hC']

end MT

namespace MT

theorem tgoStartsLen (envAt : Nat → Env) (hooks : List Hook) (r : Nat) (ign : Bool) :
    ∀ (fuel : Nat) (ctx : Context) (attempts : Nat),
    (translateGo envAt hooks (r : Int) ign ctx attempts fuel).2.1.length ≤ (r + 1) - attempts := by
  intro fuel
  induction fuel with
  | zero =>
    intro ctx attempts
    rw [translateGo]
    split <;> simp
  | succ fuel ih =>
    intro ctx attempts
    rw [translateGo]
    split
    case isTrue hcond =>
      have hlt : attempts < r + 1 := by
        rcases hcond with h | h
        · omega
        · exact_mod_cast h
      rcases hA : attemptOnce (envAt attempts) hooks ctx with ⟨ctx', tr, exc⟩
      cases exc with
      | ok c => simp; omega
      | error e =>
        by_cases hE : e = Exc.translationInterrupt
        · simp [hE]; omega
        · simp only [if_neg hE]
          cases hH : runHooks hooks (errEvent e) true with
          | error e2 => simp; omega
          | ok u =>
            by_cases hC : ¬ign = true ∧ ¬((r : Int) = -1 ∨ (attempts : Int) < (r : Int))
            · rw [if_pos hC]
              simp
              omega
            · rw [if_neg hC]
              have h2 := ih ctx' (attempts + 1)
              show (ctx :: (translateGo envAt hooks (r : Int) ign ctx' (attempts + 1) fuel).2.1).length
                ≤ (r + 1) - attempts
              simp only [List.length_cons]
              omega
    case isFalse hcond => simp

theorem tgoNoFuelOut (envAt : Nat → Env) (hooks : List Hook) (r : Nat) (ign : Bool) :
    ∀ (fuel : Nat) (ctx : Context) (attempts : Nat), (r + 1) - attempts ≤ fuel →
    ∀ c, (translateGo envAt hooks (r : Int) ign ctx attempts fuel).2.2 ≠ Outcome.fuelOut c := by
  intro fuel
  induction fuel with
  | zero =>
    intro ctx attempts hf c
    rw [translateGo]
    have hcond : ¬((r : Int) = -1 ∨ (attempts : Int) < (r : Int) + 1) := by
      intro h
      rcases h with h | h
      · omega
      · have : attempts < r + 1 := by exact_mod_cast h
        omega
    rw [if_neg hcond]
    simp
  | succ fuel ih =>
    intro ctx attempts hf c
    rw [translateGo]
    split
    case isTrue hcond =>
      have hlt : attempts < r + 1 := by
        rcases hcond with h | h
        · omega
        · exact_mod_cast h
      rcases hA : attemptOnce (envAt attempts) hooks ctx with ⟨ctx', tr, exc⟩
      cases exc with
      | ok cc => simp
      | error e =>
        by_cases hE : e = Exc.translationInterrupt
        · simp [hE]
        · simp only [if_neg hE]
          cases hH : runHooks hooks (errEvent e) true with
          | error e2 => simp
          | ok u =>
            by_cases hC : ¬ign = true ∧ ¬((r : Int) = -1 ∨ (attempts : Int) < (r : Int))
            · rw [if_pos hC]
              simp
            · rw [if_neg hC]
              show (translateGo envAt hooks (r : Int) ign ctx' (attempts + 1) fuel).2.2
                ≠ Outcome.fuelOut c
              exact ih ctx' (attempts + 1) (by omega) c
    case isFalse hcond => simp

theorem tgoUnbounded (envAt : Nat → Env) (hooks : List Hook) (ign : Bool)
    (hFail : ∀ (k : Nat) (c : Context), ∃ e, e ≠ Exc.translationInterrupt ∧
      (attemptOnce (envAt k) hooks c).2.2 = Except.error e)
    (hHooks : ∀ s b, runHooks hooks s b = Except.ok ()) :
    ∀ (fuel : Nat) (ctx : Context) (attempts : Nat),
    ∃ c, (translateGo envAt hooks (-1) ign ctx attempts fuel).2.2 = Outcome.fuelOut c := by
  intro fuel
  induction fuel with
  | zero =>
    intro ctx attempts
    rw [translateGo]
    rw [if_pos (Or.inl rfl)]
    exact ⟨ctx, rfl⟩
  | succ fuel ih =>
    intro ctx attempts
    rw [translateGo]
    rw [if_pos (Or.inl rfl)]
    obtain ⟨e, hE, hErr⟩ := hFail attempts ctx
    rcases hA : attemptOnce (envAt attempts) hooks ctx with ⟨ctx', tr, exc⟩
    rw [hA] at hErr
    simp only at hErr
    subst hErr
    simp only [if_neg hE, hHooks (errEvent e) true, true_or, not_true, and_false, if_false]
    show ∃ c, (translateGo envAt hooks (-1) ign ctx' (attempts + 1) fuel).2.2 = Outcome.fuelOut c
    exact ih ctx' (attempts + 1)

theorem attemptOncePrepFail (env : Env) (hooks : List Hook) (ctx : Context) (e : Exc)
    (hUp : ctx.upscale_ratio = none) (hPrep : env.prepDetection = Except.error e) :
    attemptOnce env hooks ctx = (ctx, [], Except.error e) := by
  simp [attemptOnce, attemptBody, bindP_def, bindP, pureP_def, pureP, getC, liftE, hUp, hPrep]

theorem tgoPrepFailLoop (envAt : Nat → Env) (hooks : List Hook) (ctx : Context)
    (r : Nat) (e : Exc)
    (hUp : ctx.upscale_ratio = none)
    (hPrep : ∀ k, (envAt k).prepDetection = Except.error e)
    (hE : e ≠ Exc.translationInterrupt)
    (hHooks : ∀ s b, runHooks hooks s b = Except.ok ()) :
    ∀ (fuel attempts : Nat), attempts ≤ r → (r + 1) - attempts ≤ fuel →
    translateGo envAt hooks (r : Int) false ctx attempts fuel =
      (List.replicate ((r + 1) - attempts) (errEvent e, true),
       List.replicate ((r + 1) - attempts) ctx,
       Outcome.raised e ctx) := by
  intro fuel
  induction fuel with
  | zero =>
    intro attempts ha hf
    omega
  | succ fuel ih =>
    intro attempts ha hf
    rw [translateGo]
    have hcond : (r : Int) = -1 ∨ (attempts : Int) < (r : Int) + 1 := by
      right
      exact_mod_cast Nat.lt_succ_of_le ha
    rw [if_pos hcond, attemptOncePrepFail (envAt attempts) hooks ctx e hUp (hPrep attempts)]
    simp only [if_neg hE, hHooks (errEvent e) true]
    by_cases hlast : attempts = r
    · subst hlast
      have hC : ¬(false : Bool) = true ∧ ¬((attempts : Int) = -1 ∨ (attempts : Int) < (attempts : Int)) := by
        constructor
        · simp
        · intro h
          rcases h with h | h
          · omega
          · omega
      rw [if_pos hC]
      have : (attempts + 1) - attempts = 1 := by omega
      rw [this]
      simp [List.replicate]
    · have hC : ¬(¬(false : Bool) = true ∧ ¬((r : Int) = -1 ∨ (attempts : Int) < (r : Int))) := by
        intro h
        apply h.2
        right
        have : attempts < r := by omega
        exact_mod_cast this
      rw [if_neg hC]
      have hrec := ih (attempts + 1) (by omega) (by omega)
      show ([] ++ [(errEvent e, true)] ++ (translateGo envAt hooks (r : Int) false ctx (attempts + 1) fuel).1,
        ctx :: (translateGo envAt hooks (r : Int) false ctx (attempts + 1) fuel).2.1,
        (translateGo envAt hooks (r : Int) false ctx (attempts + 1) fuel).2.2) = _
      rw [hrec]
      have h1 : (r + 1) - attempts = ((r + 1) - (attempts + 1)) + 1 := by omega
      rw [h1]
      simp [List.replicate_succ]

theorem attemptOnceNoRegions (env : Env) (hooks : List Hook) (ctx : Context)
    (m : Mask) (mo : Option Mask)
    (hHooks : ∀ s b, runHooks hooks s b = Except.ok ())
    (hUp : ctx.upscale_ratio = none)
    (hPrepD : env.prepDetection = Except.ok ())
    (hPrepO : env.prepOcr = Except.ok ())
    (hPrepI : env.prepInpainting = Except.ok ())
    (hPrepT : env.prepTranslation = Except.ok ())
    (hDet : ∀ c, env.detect c = Except.ok ([], m, mo)) :
    attemptOnce env hooks ctx =
      (noRegionsCtx env ctx m mo,
       [("detection", false), ("skip-no-regions", true)],
       Except.ok (noRegionsCtx env ctx m mo)) := by
  simp [attemptOnce, attemptBody, translateStages, bindP_def, bindP, pureP_def, pureP,
        getC, modifyC, liftE, reportProgress, hUp, hPrepD, hPrepO, hPrepI, hPrepT,
        hDet, hHooks, noRegionsCtx]

/-- The assignment loop preserves the number of regions (excess
translations beyond the regions are dropped by `zip`). -/
theorem assignTranslations_length (ctx : Context) :
    ∀ (rs : List Region) (ts : List String),
    (assignTranslations ctx rs ts).length = rs.length := by
  intro rs
  induction rs with
  | nil => intro ts; cases ts <;> rfl
  | cons r rs ih =>
    intro ts
    cases ts with
    | nil => rfl
    | cons t ts => simp [assignTranslations, ih]

/-- Positional content of the assignment loop: within the zipped prefix,
position `i` holds region `i` updated with translation `i`. -/
theorem assignTranslations_get? (ctx : Context) :
    ∀ (rs : List Region) (ts : List String) (i : Nat), i < rs.length → i < ts.length →
    (assignTranslations ctx rs ts).get? i =
      (rs.get? i).bind fun r => (ts.get? i).map fun t =>
        { r with translation := some (caseTransform ctx t),
                 target_lang := some ctx.target_lang,
                 alignment := some ctx.alignment,
                 direction := some ctx.direction } := by
  intro rs
  induction rs with
  | nil => intro ts i h1 h2; simp at h1
  | cons r rs ih =>
    intro ts i h1 h2
    cases ts with
    | nil => simp at h2
    | cons t ts =>
      cases i with
      | zero => rfl
      | succ i =>
        simp only [assignTranslations, List.get?]
        exact ih ts i (by simpa using h1) (by simpa using h2)

/-- Every region in the zipped prefix has its translation assigned. -/
theorem assignTranslations_isSome (ctx : Context) :
    ∀ (rs : List Region) (ts : List String), rs.length ≤ ts.length →
    ∀ r ∈ assignTranslations ctx rs ts, r.translation.isSome := by
  intro rs
  induction rs with
  | nil => intro ts h r hr; cases ts <;> simp [assignTranslations] at hr
  | cons r0 rs ih =>
    intro ts h r hr
    cases ts with
    | nil => simp at h
    | cons t ts =>
      simp only [assignTranslations, List.mem_cons] at hr
      rcases hr with hr | hr
      · subst hr; rfl
      · exact ih ts (by simpa using h) r hr

/-- The post-translation filter cannot raise once every region carries a
translation. -/
theorem filterByTranslation_ok (env : Env) :
    ∀ (l : List Region), (∀ r ∈ l, r.translation.isSome) →
    ∃ l', filterByTranslation env l = Except.ok l' := by
  intro l
  induction l with
  | nil => intro h; exact ⟨[], rfl⟩
  | cons r rest ih =>
    intro h
    obtain ⟨t, ht⟩ := Option.isSome_iff_exists.mp (h r (List.mem_cons_self r rest))
    obtain ⟨l', hl'⟩ := ih (fun x hx => h x (List.mem_cons_of_mem r hx))
    refine ⟨if (!(pyIsNumeric t || matchesOpt env.filterTrans t
      || decide (env.countValuable t ≤ 1))) = true then r :: l' else l', ?_⟩
    simp only [filterByTranslation, transKeep, ht, hl', exceptBind_ok, exceptPure]

theorem runTextTranslation_ok (env : Env) (ctx : Context) (rs : List Region) (ts : List String)
    (hr : ctx.text_regions = some rs)
    (hd : env.translateDispatch (rs.map Region.text) = Except.ok ts)
    (hlen : rs.length ≤ ts.length) :
    ∃ surv, runTextTranslation env ctx =
      Except.ok { queries := rs.map Region.text,
                  assigned := assignTranslations ctx rs ts,
                  surviving := surv } := by
  obtain ⟨surv, hsurv⟩ := filterByTranslation_ok env (assignTranslations ctx rs ts)
    (assignTranslations_isSome ctx rs ts hlen)
  refine ⟨surv, ?_⟩
  simp only [runTextTranslation, hr, Option.getD_some, hd, exceptBind_ok, hsurv, exceptPure]

/-- Every attempt under `cEnvPrepFail` fails immediately with the same
error, whatever the context. -/
theorem cEnvPrepFail_attempt (hooks : List Hook) (c : Context) :
    attemptOnce cEnvPrepFail hooks c = (c, [], Except.error (Exc.error "prep")) := by
  cases hc : c.upscale_ratio.isSome <;>
    simp [attemptOnce, attemptBody, bindP_def, bindP, pureP_def, pureP, getC, liftE, hc,
          cEnvPrepFail, cEnvBase]

/-! ## The claims -/

/-- C2: for every configured retry count `r >= 0`, `translate` executes at
most `r + 1` attempts of the stage sequence before returning or propagating
the last exception (the loop never runs past its budget); and for the
sentinel `retries = -1` the attempt loop is unbounded: when every attempt
fails with an ordinary exception, the loop is still running after any
amount of fuel. -/
theorem retry_budget :
    (∀ (envAt : Nat → Env) (hooks : List Hook) (ign : Bool) (params : Context)
       (image : Image) (r fuel : Nat),
       params.retries = (r : Int) → r + 1 ≤ fuel →
       (translate envAt hooks ign params image fuel).2.1.length ≤ r + 1 ∧
       ∀ c, (translate envAt hooks ign params image fuel).2.2 ≠ Outcome.fuelOut c) ∧
    (∀ (envAt : Nat → Env) (hooks : List Hook) (ign : Bool) (params : Context) (image : Image),
       params.retries = -1 →
       (∀ (k : Nat) (c : Context), ∃ e, e ≠ Exc.translationInterrupt ∧
         (attemptOnce (envAt k) hooks c).2.2 = Except.error e) →
       (∀ s b, runHooks hooks s b = Except.ok ()) →
       ∀ fuel, ∃ c, (translate envAt hooks ign params image fuel).2.2 = Outcome.fuelOut c) := by
  constructor
  · intro envAt hooks ign params image r fuel hret hfuel
    constructor
    · have h := tgoStartsLen envAt hooks r ign fuel (translateInit params image) 0
      unfold translate
      rw [hret]
      omega
    · intro c
      have h := tgoNoFuelOut envAt hooks r ign fuel (translateInit params image) 0 (by omega) c
      unfold translate
      rw [hret]
      exact h
  · intro envAt hooks ign params image hret hFail hHooks fuel
    have h := tgoUnbounded envAt hooks ign hFail hHooks fuel (translateInit params image) 0
    unfold translate
    rw [hret]
    exact h

/-- Witness for C2 at concrete inputs: a zero-retries run uses at most one
attempt and terminates, and a `retries = -1` run with an always-failing
prepare call is still looping after 7 fuel. -/
theorem retry_budget_witness :
    ((translate (fun _ => cEnvBase) [] false {} cImg 1).2.1.length ≤ 1 ∧
      ∀ c, (translate (fun _ => cEnvBase) [] false {} cImg 1).2.2 ≠ Outcome.fuelOut c) ∧
    (∃ c, (translate (fun _ => cEnvPrepFail) [] false { retries := -1 } cImg 7).2.2 =
      Outcome.fuelOut c) :=
  ⟨retry_budget.1 (fun _ => cEnvBase) [] false {} cImg 0 1 rfl (by decide),
   retry_budget.2 (fun _ => cEnvPrepFail) [] false { retries := -1 } cImg rfl
     (fun k c => ⟨Exc.error "prep", by decide, by rw [cEnvPrepFail_attempt]⟩)
     (fun s b => rfl) 7⟩

/-- C1 counterexample: with one retry configured, an upscale-then-detect-
failure run starts its second attempt from a context that already carries
the upscaled image written by the failed first attempt — not from a fresh
context built from the original input and options (whose `upscaled` is
`None`). -/
theorem retry_fresh_context_cex :
    ((translate (fun _ => cEnvC1) [] false cParamsC1 cImg 5).2.1.get? 1).map
        (fun c => c.upscaled) = some (some cUp) ∧
    (translateInit cParamsC1 cImg).upscaled = none ∧
    (translate (fun _ => cEnvC1) [] false cParamsC1 cImg 5).2.1.get? 1 ≠
      some (translateInit cParamsC1 cImg) :=
  ⟨rfl, rfl, by decide⟩

/-- C1 (amended): when an attempt fails with an ordinary exception and the
run continues, the next attempt re-enters the stage sequence on the same
mutated context `ctx'` the failed attempt left behind — the engine never
rebuilds a fresh context. -/
theorem retry_reuses_context (envAt : Nat → Env) (hooks : List Hook) (retries : Int)
    (ign : Bool) (ctx ctx' : Context) (tr : Trace) (e : Exc) (attempts fuel : Nat)
    (hcond : retries = -1 ∨ (attempts : Int) < retries + 1)
    (hA : attemptOnce (envAt attempts) hooks ctx = (ctx', tr, Except.error e))
    (hE : e ≠ Exc.translationInterrupt)
    (hH : runHooks hooks (errEvent e) true = Except.ok ())
    (hC : ign = true ∨ retries = -1 ∨ (attempts : Int) < retries) :
    translateGo envAt hooks retries ign ctx attempts (fuel + 1) =
      (tr ++ [(errEvent e, true)] ++
        (translateGo envAt hooks retries ign ctx' (attempts + 1) fuel).1,
       ctx :: (translateGo envAt hooks retries ign ctx' (attempts + 1) fuel).2.1,
       (translateGo envAt hooks retries ign ctx' (attempts + 1) fuel).2.2) :=
  tgoErrorCont envAt hooks retries ign ctx ctx' tr e attempts fuel hcond hA hE hH hC

/-- Witness for the amended C1 at the concrete run of `cEnvC1`: the second
attempt continues from `cCtxC1Mut`, the mutated context of the failed first
attempt. -/
theorem retry_reuses_context_witness :
    translateGo (fun _ => cEnvC1) [] 1 false (translateInit cParamsC1 cImg) 0 (4 + 1) =
      ([("upscaling", false), ("detection", false)] ++ [(errEvent (Exc.error "det"), true)] ++
        (translateGo (fun _ => cEnvC1) [] 1 false cCtxC1Mut 1 4).1,
       translateInit cParamsC1 cImg :: (translateGo (fun _ => cEnvC1) [] 1 false cCtxC1Mut 1 4).2.1,
       (translateGo (fun _ => cEnvC1) [] 1 false cCtxC1Mut 1 4).2.2) :=
  retry_reuses_context (fun _ => cEnvC1) [] 1 false (translateInit cParamsC1 cImg) cCtxC1Mut
    [("upscaling", false), ("detection", false)] (Exc.error "det") 0 4
    (Or.inr (by decide)) rfl (by decide) rfl (Or.inr (Or.inr (by decide)))

/-- C3: when the attempt ends with the interruption signal (raised by a
progress hook), the loop breaks immediately: exactly one attempt ran, no
exception propagates, and `translate` returns the partial context as it
stood at the point of interruption. -/
theorem interrupt_single_attempt (envAt : Nat → Env) (hooks : List Hook) (retries : Int)
    (ign : Bool) (ctx ctx' : Context) (tr : Trace) (attempts fuel : Nat)
    (hcond : retries = -1 ∨ (attempts : Int) < retries + 1)
    (hA : attemptOnce (envAt attempts) hooks ctx =
      (ctx', tr, Except.error Exc.translationInterrupt)) :
    translateGo envAt hooks retries ign ctx attempts (fuel + 1) =
      (tr, [ctx], Outcome.interrupted ctx') := by
  rw [translateGo, if_pos hcond, hA]
  simp

/-- Witness for C3: a hook that interrupts when the `ocr` stage begins ends
the run after the one attempt, returning the partial context `cCtxC3Mut`
(regions detected, nothing past OCR). -/
theorem interrupt_single_attempt_witness :
    translateGo (fun _ => cEnvC3) [cHookOcr] 0 false (translateInit {} cImg) 0 (2 + 1) =
      ([("detection", false), ("ocr", false)], [translateInit {} cImg],
       Outcome.interrupted cCtxC3Mut) :=
  interrupt_single_attempt (fun _ => cEnvC3) [cHookOcr] 0 false (translateInit {} cImg)
    cCtxC3Mut [("detection", false), ("ocr", false)] 0 2 (Or.inr (by decide)) rfl

/-- C5 counterexample: a failing `prepare_detection` call is retried (two
attempts run under `retries = 1`) rather than propagating immediately, and
with `ignore_errors` set it is swallowed entirely instead of propagating. -/
theorem prepare_failure_retried_cex :
    (translate (fun _ => cEnvC5) [] false { retries := 1 } cImg 5).2.1.length = 2 ∧
    (translate (fun _ => cEnvC5) [] false { retries := 1 } cImg 5).2.2 =
      Outcome.raised (Exc.error "prep") (translateInit { retries := 1 } cImg) ∧
    (translate (fun _ => cEnvC5) [] true { retries := 0 } cImg 5).2.2 =
      Outcome.exhausted (translateInit { retries := 0 } cImg) :=
  ⟨rfl, rfl, rfl⟩

/-- C5 (amended): a failure of a model-service preparation call is handled
by the same retry machinery as any stage failure: with `retries = r >= 0`
and `ignore_errors` unset, the preparing attempt is re-run `r + 1` times
(each from the unchanged context, since preparation fails before any stage
writes) and only then does the last exception propagate. -/
theorem prepare_failure_retry_policy (envAt : Nat → Env) (hooks : List Hook)
    (params : Context) (image : Image) (r : Nat) (e : Exc) (fuel : Nat)
    (hUp : params.upscale_ratio = none)
    (hret : params.retries = (r : Int))
    (hPrep : ∀ k, (envAt k).prepDetection = Except.error e)
    (hE : e ≠ Exc.translationInterrupt)
    (hHooks : ∀ s b, runHooks hooks s b = Except.ok ())
    (hfuel : r + 1 ≤ fuel) :
    translate envAt hooks false params image fuel =
      (List.replicate (r + 1) (errEvent e, true),
       List.replicate (r + 1) (translateInit params image),
       Outcome.raised e (translateInit params image)) := by
  unfold translate
  rw [hret]
  have h := tgoPrepFailLoop envAt hooks (translateInit params image) r e hUp hPrep hE hHooks
    fuel 0 (by omega) (by omega)
  simpa using h

/-- Witness for the amended C5: under `cEnvC5` with one retry, the loop
runs two attempts from the unchanged initial context and then raises. -/
theorem prepare_failure_retry_policy_witness :
    translate (fun _ => cEnvC5) [] false { retries := 1 } cImg 5 =
      (List.replicate 2 (errEvent (Exc.error "prep"), true),
       List.replicate 2 (translateInit { retries := 1 } cImg),
       Outcome.raised (Exc.error "prep") (translateInit { retries := 1 } cImg)) :=
  prepare_failure_retry_policy (fun _ => cEnvC5) [] { retries := 1 } cImg 1 (Exc.error "prep")
    5 rfl rfl (fun _ => rfl) (by decide) (fun s b => rfl) (by decide)

/-- C4 counterexample: on a run where detection yields zero regions, the
returned context's `result` attribute is `None`, not the original input
image as the claim states (the original image is only substituted later by
the caller, e.g. `_translate_file`). -/
theorem no_regions_result_cex :
    (translate (fun _ => cEnvBase) [] false {} cImg 3).2.2 = Outcome.ok cCtxNoRegions ∧
    cCtxNoRegions.text_regions = some [] ∧
    cCtxNoRegions.result = none ∧
    cCtxNoRegions.result ≠ some cImg ∧
    (translate (fun _ => cEnvBase) [] false {} cImg 3).1 =
      [("detection", false), ("skip-no-regions", true)] :=
  ⟨rfl, rfl, rfl, by decide, rfl⟩

/-- C4 (amended): when detection yields zero regions the pipeline stops
right after the detection stage: the whole event trace is the detection
event followed by the terminal `skip-no-regions` event (so OCR,
translation, mask refinement, inpainting and rendering are never entered),
exactly one attempt runs, the returned context's `result` is `None` with
`text_regions = []`, and the original unmodified image is what a caller
saving the run's output effectively uses. -/
theorem no_regions_early_exit (envAt : Nat → Env) (hooks : List Hook) (ign : Bool)
    (params : Context) (image : Image) (fuel : Nat) (m : Mask) (mo : Option Mask)
    (hHooks : ∀ s b, runHooks hooks s b = Except.ok ())
    (hUp : params.upscale_ratio = none)
    (hPrepD : (envAt 0).prepDetection = Except.ok ())
    (hPrepO : (envAt 0).prepOcr = Except.ok ())
    (hPrepI : (envAt 0).prepInpainting = Except.ok ())
    (hPrepT : (envAt 0).prepTranslation = Except.ok ())
    (hDet : ∀ c, (envAt 0).detect c = Except.ok ([], m, mo))
    (hret : -1 ≤ params.retries) (hfuel : 1 ≤ fuel) :
    translate envAt hooks ign params image fuel =
      ([("detection", false), ("skip-no-regions", true)],
       [translateInit params image],
       Outcome.ok (noRegionsCtx (envAt 0) (translateInit params image) m mo)) ∧
    (noRegionsCtx (envAt 0) (translateInit params image) m mo).result = none ∧
    (noRegionsCtx (envAt 0) (translateInit params image) m mo).text_regions = some [] ∧
    fileEffectiveResult image (noRegionsCtx (envAt 0) (translateInit params image) m mo) =
      some image := by
  obtain ⟨fuel', rfl⟩ : ∃ f, fuel = f + 1 := ⟨fuel - 1, by omega⟩
  have hA := attemptOnceNoRegions (envAt 0) hooks (translateInit params image) m mo hHooks hUp
    hPrepD hPrepO hPrepI hPrepT hDet
  have hcond : params.retries = -1 ∨ ((0 : Nat) : Int) < params.retries + 1 := by omega
  refine ⟨?_, rfl, rfl, rfl⟩
  unfold translate
  exact tgoOkStep envAt hooks params.retries ign (translateInit params image) _ _ _ 0 fuel'
    hcond hA

/-- Witness for the amended C4 at the concrete zero-regions run. -/
theorem no_regions_early_exit_witness :
    translate (fun _ => cEnvBase) [] false {} cImg 3 =
      ([("detection", false), ("skip-no-regions", true)],
       [translateInit {} cImg],
       Outcome.ok (noRegionsCtx cEnvBase (translateInit {} cImg) 0 none)) ∧
    (noRegionsCtx cEnvBase (translateInit {} cImg) 0 none).result = none ∧
    (noRegionsCtx cEnvBase (translateInit {} cImg) 0 none).text_regions = some [] ∧
    fileEffectiveResult cImg (noRegionsCtx cEnvBase (translateInit {} cImg) 0 none) =
      some cImg :=
  no_regions_early_exit (fun _ => cEnvBase) [] false {} cImg 3 0 none
    (fun _ _ => rfl) rfl rfl rfl rfl rfl (fun _ => rfl) (by decide) (by decide)

/-- C6: the translation stage makes a single batched dispatch whose
argument is the regions' source texts in region order, and (with the case
options unset) the translation at position `i` of the dispatched result is
stored on region `i`, whose source text is untouched. -/
theorem translation_positional (env : Env) (ctx : Context) (rs : List Region) (ts : List String)
    (hr : ctx.text_regions = some rs)
    (hd : env.translateDispatch (rs.map Region.text) = Except.ok ts)
    (hlen : ts.length = rs.length)
    (hup : ctx.uppercase = false) (hlow : ctx.lowercase = false) :
    ∃ out, runTextTranslation env ctx = Except.ok out ∧
      out.queries = rs.map Region.text ∧
      out.assigned.length = rs.length ∧
      ∀ i, i < rs.length →
        (out.assigned.get? i).map Region.translation = (ts.get? i).map some ∧
        (out.assigned.get? i).map Region.text = (rs.get? i).map Region.text := by
  obtain ⟨surv, hrun⟩ := runTextTranslation_ok env ctx rs ts hr hd (le_of_eq hlen.symm)
  refine ⟨_, hrun, rfl, assignTranslations_length ctx rs ts, ?_⟩
  intro i hi
  have hi' : i < ts.length := by omega
  rw [assignTranslations_get? ctx rs ts i hi hi', List.get?_eq_get hi, List.get?_eq_get hi']
  constructor
  · simp [caseTransform, hup, hlow]
  · simp

/-- Witness for C6 on two concrete regions: the dispatch receives both
texts in order and each region receives its positional translation. -/
theorem translation_positional_witness :
    ∃ out, runTextTranslation cEnv6 cCtx6 = Except.ok out ∧
      out.queries = ["abc", "wxyz"] ∧
      (out.assigned.get? 0).map Region.translation = some (some "abc!!") ∧
      (out.assigned.get? 1).map Region.translation = some (some "wxyz!!") := by
  obtain ⟨out, h1, h2, h3, h4⟩ := translation_positional cEnv6 cCtx6 [cRegionA, cRegionB]
    ["abc!!", "wxyz!!"] rfl rfl rfl rfl rfl
  refine ⟨out, h1, by simpa using h2, ?_, ?_⟩
  · simpa using (h4 0 (by decide)).1
  · simpa using (h4 1 (by decide)).1

/-- C10: with the `lowercase` option set (and `uppercase` unset), the
stored translation is the dispatched translation converted to UPPER case —
the `lowercase` branch of `_run_text_translation` calls `.upper()`. -/
theorem lowercase_applies_upper (env : Env) (ctx : Context) (rs : List Region) (ts : List String)
    (hr : ctx.text_regions = some rs)
    (hd : env.translateDispatch (rs.map Region.text) = Except.ok ts)
    (hlen : ts.length = rs.length)
    (hup : ctx.uppercase = false) (hlow : ctx.lowercase = true) :
    ∃ out, runTextTranslation env ctx = Except.ok out ∧
      ∀ i, i < rs.length →
        (out.assigned.get? i).map Region.translation =
          (ts.get? i).map fun t => some (pyUpper t) := by
  obtain ⟨surv, hrun⟩ := runTextTranslation_ok env ctx rs ts hr hd (le_of_eq hlen.symm)
  refine ⟨_, hrun, ?_⟩
  intro i hi
  have hi' : i < ts.length := by omega
  rw [assignTranslations_get? ctx rs ts i hi hi', List.get?_eq_get hi, List.get?_eq_get hi']
  simp [caseTransform, hup, hlow]

/-- Witness for C10: with `lowercase` set the two concrete translations
are stored upper-cased. -/
theorem lowercase_applies_upper_witness :
    ∃ out, runTextTranslation cEnv6 cCtx10 = Except.ok out ∧
      (out.assigned.get? 0).map Region.translation = some (some "ABC!!") ∧
      (out.assigned.get? 1).map Region.translation = some (some "WXYZ!!") := by
  obtain ⟨out, h1, h2⟩ := lowercase_applies_upper cEnv6 cCtx10 [cRegionA, cRegionB]
    ["abc!!", "wxyz!!"] rfl rfl rfl rfl rfl
  have e0 : pyUpper "abc!!" = "ABC!!" := by decide
  have e1 : pyUpper "wxyz!!" = "WXYZ!!" := by decide
  refine ⟨out, h1, ?_, ?_⟩
  · simpa [e0] using h2 0 (by decide)
  · simpa [e1] using h2 1 (by decide)

/-- C7 counterexample: a request carrying BOTH `image` and `url` is not
rejected: `get_file` silently prefers `image` and the pipeline is invoked
with it (HTTP 200), contradicting the claimed 422 validation error. -/
theorem input_exclusivity_cex :
    errHandling sets0 true { image := some smallImg, url := some smallImg2 } =
      { httpStatus := 200, bodyStatus := none, pipelineImage := some smallImg } ∧
    (errHandling sets0 true { image := some smallImg, url := some smallImg2 }).httpStatus ≠ 422 ∧
    (errHandling sets0 true { image := some smallImg, url := some smallImg2 }).pipelineImage ≠
      none :=
  ⟨rfl, by decide, by decide⟩

/-- C7 (amended): a schema-valid request with none of `image` /
`base64Images` / `url` present is answered with a body carrying status 422
(the HTTP status itself is the aiohttp default 200) and the pipeline is not
invoked; when several carriers are present there is no rejection — `image`
takes precedence over `base64Images` over `url`, and a small selected image
reaches the pipeline; and when the selected image exceeds the `8000**2`
pixel-area ceiling the reply is HTTP 422 and the pipeline is not invoked. -/
theorem input_selection_policy (sets : OptionSets) (d : PostData)
    (hs : schemaLoadOk sets d = true) :
    (d.image = none → d.base64Images = none → d.url = none →
      errHandling sets true d =
        { httpStatus := 200, bodyStatus := some 422, pipelineImage := none }) ∧
    (∀ img, d.image = some img → img.width * img.height ≤ 8000 ^ 2 →
      errHandling sets true d =
        { httpStatus := 200, bodyStatus := none, pipelineImage := some img }) ∧
    (∀ img, getFileContent d.image d.base64Images d.url = Except.ok img →
      img.width * img.height > 8000 ^ 2 →
      errHandling sets true d =
        { httpStatus := 422, bodyStatus := some 422, pipelineImage := none }) := by
  refine ⟨?_, ?_, ?_⟩
  · intro h1 h2 h3
    simp [errHandling, hs, h1, h2, h3]
  · intro img hImg hsize
    have hne : ¬(d.image = none ∧ d.base64Images = none ∧ d.url = none) := by
      simp [hImg]
    have hcontent : getFileContent d.image d.base64Images d.url = Except.ok img := by
      simp [getFileContent, hImg]
    have hgf : getFile d.image d.base64Images d.url = Except.ok img := by
      simp only [getFile, hcontent, exceptBind_ok]
      rw [if_neg (by omega)]
      rfl
    simp [errHandling, hs, hne, hgf]
  · intro img hImg hsize
    have hne : ¬(d.image = none ∧ d.base64Images = none ∧ d.url = none) := by
      rintro ⟨h1, h2, h3⟩
      rw [h1, h2, h3] at hImg
      simp [getFileContent] at hImg
    have hgf : getFile d.image d.base64Images d.url =
        Except.error (Exc.validationError "to large") := by
      simp only [getFile, hImg, exceptBind_ok]
      rw [if_pos hsize]
    simp [errHandling, hs, hne, hgf]

/-- Witness for the amended C7: with both `image` and `url` present, the
pipeline runs on the `image` content. -/
theorem input_selection_policy_witness :
    errHandling sets0 true { image := some smallImg, url := some smallImg2 } =
      { httpStatus := 200, bodyStatus := none, pipelineImage := some smallImg } :=
  (input_selection_policy sets0 { image := some smallImg, url := some smallImg2 } rfl).2.1
    smallImg rfl (by decide)

/-- C8: the `PostSchema` selector validators are inverted — they accept a
value exactly when it is NOT in the enumerated option set.  Evaluated at
the failing input `direction = "h"`: the in-set value is rejected with 422
before the pipeline runs, while the out-of-set value `"sideways"` is
accepted and the pipeline is invoked. -/
theorem schema_validator_inverted :
    validateDirection "h" = false ∧
    (["auto", "h", "v"].contains "h") = true ∧
    validateDirection "sideways" = true ∧
    (["auto", "h", "v"].contains "sideways") = false ∧
    errHandling sets0 true { direction := some "h", image := some smallImg } =
      { httpStatus := 422, bodyStatus := some 422, pipelineImage := none } ∧
    errHandling sets0 true { direction := some "sideways", image := some smallImg } =
      { httpStatus := 200, bodyStatus := none, pipelineImage := some smallImg } :=
  ⟨by decide, by decide, by decide, by decide, by decide, by decide⟩

/-- C9: when the pipeline produced no result image, the SocketWorker reply
construction dereferences `output.height` while `output` is `None`, raising
`AttributeError`; the exception is caught by the task loop, so NO
finish-task frame is sent (in particular not the claimed transparent
placeholder); when a result exists it is sent unchanged. -/
theorem ws_placeholder_crash :
    wsBuildOutput none =
      Except.error (Exc.attributeError "NoneType has no attribute height") ∧
    wsHandleNewTask 7 none = none ∧
    wsHandleNewTask 7 (some cImg) = some { taskId := 7, imageBytes := cImg } :=
  ⟨rfl, rfl, rfl⟩

end MT
